import Mathlib

/-!
Verification of the atari-cr pauseable foveal environment and CRDQN agent.

The definitions below are a shallow embedding of the Python sources:
  * `src/atari_cr/pauseable_env.py`  (PauseableFixedFovealEnv)
  * `src/atari_cr/common/utils.py`   (EMMA_fixation_time)
  * `src/atari_cr/agents/dqn_atari_cr/crdqn.py` (CRDQN.learn/train/_train_sfn/_train_dqn)

Machine floats are modelled as real numbers.  The transcendental functions
(np.exp, np.log, np.sqrt) are packaged in a `RealFuns` record so that the
embedded code is a plain function of them; theorems instantiate the record
with `Real.exp`, `Real.log`, `Real.sqrt`.
-/

namespace AtariCR

/-- The fovea type literal `FovType = Literal["window", "gaussian", "exponential"]`
(models.py line 184). -/
inductive FovType where
  | window
  | gaussian
  | exponential
deriving DecidableEq

/-- Configuration of `PauseableFixedFovealEnv.__init__` (pauseable_env.py lines 34-83).
`args_sensory_action_space` is `args.sensory_action_space`, used only in relative
sensory-action mode (main.py passes `(-n, n)`).  `visual_degrees_per_pixel` is
`VISUAL_DEGREE_SCREEN_SIZE / obs_size` (line 164); the constant
`VISUAL_DEGREE_SCREEN_SIZE` lives outside the given sources, so the quotient is
kept as an opaque per-axis configuration value. -/
structure AtariEnvConfig where
  obs_size : ℤ × ℤ
  fov_size : ℤ × ℤ
  fov : FovType
  fov_init_loc : ℤ × ℤ
  relative_sensory_actions : Bool
  args_sensory_action_space : ℤ × ℤ
  pause_cost : ℝ
  saccade_cost_scale : ℝ
  consecutive_pause_limit : ℕ
  no_pauses : Bool
  n_base_actions : ℕ
  visual_degrees_per_pixel : ℝ × ℝ

/-- `self.sensory_action_space` as computed in `__init__` (lines 45-54):
the raw args value in relative mode, `obs_size` for gaussian/exponential
fovea, `obs_size - fov_size` for a window fovea. -/
def sensory_action_space (cfg : AtariEnvConfig) : ℤ × ℤ :=
  if cfg.relative_sensory_actions then
    cfg.args_sensory_action_space
  else if cfg.fov = FovType.gaussian ∨ cfg.fov = FovType.exponential then
    cfg.obs_size
  else
    (cfg.obs_size.1 - cfg.fov_size.1, cfg.obs_size.2 - cfg.fov_size.2)

/-- `self.pause_action` (lines 66-67): `None` when pauses are disabled,
otherwise the last motor index `env.action_space.n` (one past the base actions). -/
def pause_action (cfg : AtariEnvConfig) : Option ℕ :=
  if cfg.no_pauses then none else some cfg.n_base_actions

/-- `action["motor_action"] == self.pause_action`; in Python a comparison with
`None` is `False`. -/
def isPause (cfg : AtariEnvConfig) (motor : ℕ) : Bool :=
  match pause_action cfg with
  | none => false
  | some p => motor == p

/-- `_clip_to_valid_fov` (lines 218-220): `np.clip(loc, [0,0], self.sensory_action_space)`.
`np.clip(a, lo, hi)` is `minimum(hi, maximum(a, lo))`, which is why an upper
bound below `0` wins over the lower bound. -/
def clip_to_valid_fov (cfg : AtariEnvConfig) (loc : ℤ × ℤ) : ℤ × ℤ :=
  (min (sensory_action_space cfg).1 (max loc.1 0),
   min (sensory_action_space cfg).2 (max loc.2 0))

/-- The `fov_loc` update performed by `_fov_step` (lines 234-238): in relative
mode the action is clipped, added to the current location and clipped again;
in absolute mode the action is clipped directly. -/
def fov_step_loc (cfg : AtariEnvConfig) (fov_loc action : ℤ × ℤ) : ℤ × ℤ :=
  if cfg.relative_sensory_actions then
    clip_to_valid_fov cfg
      (fov_loc.1 + (clip_to_valid_fov cfg action).1,
       fov_loc.2 + (clip_to_valid_fov cfg action).2)
  else
    clip_to_valid_fov cfg action

/-- A window-fovea environment in relative sensory-action mode, constructed the
way `main.py` does it (`sensory_action_space=(-10, 10)`). -/
def cfgRelWindow : AtariEnvConfig :=
  { obs_size := (84, 84)
    fov_size := (26, 26)
    fov := FovType.window
    fov_init_loc := (0, 0)
    relative_sensory_actions := true
    args_sensory_action_space := (-10, 10)
    pause_cost := 0.01
    saccade_cost_scale := 0.001
    consecutive_pause_limit := 20
    no_pauses := false
    n_base_actions := 9
    visual_degrees_per_pixel := (1, 1) }

/-- Claim C1, counterexample: with a window fovea in relative sensory-action
mode (as constructed by main.py with `--relative_sensory_actions`), `_fov_step`
from the initial location `(0,0)` with the in-range displacement `(5,5)` leaves
`fov_loc` at `(-10, 5)`: the first component escapes `[0, obs_size - fov_size]`,
because `np.clip(loc, [0,0], [-10,10])` pins it to `-10`. -/
theorem fov_loc_escapes_range_relative :
    cfgRelWindow.fov = FovType.window ∧
    fov_step_loc cfgRelWindow (0, 0) (5, 5) = (-10, 5) ∧
    ¬ (0 ≤ (fov_step_loc cfgRelWindow (0, 0) (5, 5)).1) := by
  refine ⟨rfl, by decide, by decide⟩

/-- Claim C1 (amended): in absolute sensory-action mode, after any `_fov_step`
with a window fovea, `fov_loc` lies componentwise within `[0,0]` and
`obs_size - fov_size` (using the constructor's assertion `fov_size < obs_size`). -/
theorem fov_loc_in_range_window_absolute (cfg : AtariEnvConfig) (loc action : ℤ × ℤ)
    (hw : cfg.fov = FovType.window)
    (habs : cfg.relative_sensory_actions = false)
    (h1 : cfg.fov_size.1 < cfg.obs_size.1)
    (h2 : cfg.fov_size.2 < cfg.obs_size.2) :
    0 ≤ (fov_step_loc cfg loc action).1 ∧
    (fov_step_loc cfg loc action).1 ≤ cfg.obs_size.1 - cfg.fov_size.1 ∧
    0 ≤ (fov_step_loc cfg loc action).2 ∧
    (fov_step_loc cfg loc action).2 ≤ cfg.obs_size.2 - cfg.fov_size.2 := by
  have hspace : sensory_action_space cfg =
      (cfg.obs_size.1 - cfg.fov_size.1, cfg.obs_size.2 - cfg.fov_size.2) := by
    simp [sensory_action_space, habs, hw]
  have hstep : fov_step_loc cfg loc action = clip_to_valid_fov cfg action := by
    simp [fov_step_loc, habs]
  rw [hstep, clip_to_valid_fov, hspace]
  dsimp only
  refine ⟨?_, ?_, ?_, ?_⟩ <;> omega

/-- Witness for `fov_loc_in_range_window_absolute` at a concrete configuration. -/
theorem fov_loc_in_range_window_absolute_witness :
    0 ≤ (fov_step_loc { cfgRelWindow with relative_sensory_actions := false }
          (0, 0) (200, -300)).1 ∧
    (fov_step_loc { cfgRelWindow with relative_sensory_actions := false }
          (0, 0) (200, -300)).1 ≤ 84 - 26 ∧
    0 ≤ (fov_step_loc { cfgRelWindow with relative_sensory_actions := false }
          (0, 0) (200, -300)).2 ∧
    (fov_step_loc { cfgRelWindow with relative_sensory_actions := false }
          (0, 0) (200, -300)).2 ≤ 84 - 26 :=
  fov_loc_in_range_window_absolute _ (0, 0) (200, -300) rfl rfl
    (by decide) (by decide)

/-- The transcendental numpy functions the sources call out to
(`np.exp`, `np.log`, `np.sqrt`). -/
structure RealFuns where
  exp : ℝ → ℝ
  log : ℝ → ℝ
  sqrt : ℝ → ℝ

/-- The numpy functions interpreted over the reals. -/
noncomputable def realFuns : RealFuns :=
  { exp := Real.exp, log := Real.log, sqrt := Real.sqrt }

/-- Return value of `EMMA_fixation_time`: the `(preparation, execution,
remaining-encoding)` breakdown, the total time, and the `moved` flag. -/
structure EMMAResult where
  breakdown : ℝ × ℝ × ℝ
  total : ℝ
  moved : Bool

/-- `EMMA_fixation_time` (common/utils.py lines 539-584). -/
noncomputable def EMMA_fixation_time (F : RealFuns)
    (dist freq execution_time K k saccade_scaling t_prep : ℝ) : EMMAResult :=
  let t_enc := K * (-F.log freq) * F.exp (k * dist)
  if t_enc < t_prep then
    { breakdown := (t_enc, 0, 0), total := t_enc, moved := false }
  else
    let t_exec := execution_time + saccade_scaling * dist
    let t_sacc := t_prep + t_exec
    if t_enc ≤ t_sacc then
      { breakdown := (t_prep, t_exec, 0), total := t_sacc, moved := true }
    else
      let e_new := k * (-F.log freq)
      let t_enc_new := (1 - t_sacc / t_enc) * e_new
      { breakdown := (t_prep, t_exec, t_enc_new), total := t_sacc + t_enc_new,
        moved := true }

/-- `EMMA_fixation_time` with the default parameters of its Python signature
(`freq=0.1, execution_time=0.07, K=0.006, k=0.4, saccade_scaling=0.002,
t_prep=0.135`), which is how pauseable_env.py line 168 calls it. -/
noncomputable def EMMA_default (F : RealFuns) (dist : ℝ) : EMMAResult :=
  EMMA_fixation_time F dist 0.1 0.07 0.006 0.4 0.002 0.135

/-- Claim C4: `EMMA_fixation_time` computes `t_enc = K·(-ln freq)·exp(k·d)`;
below `t_prep` it returns `t_enc` with `moved = false`; otherwise, with
`t_sacc = t_prep + (execution_time + saccade_scaling·d)`, it returns `t_sacc`
with `moved = true` when `t_enc ≤ t_sacc` and
`t_sacc + (1 - t_sacc/t_enc)·(k·(-ln freq))` with `moved = true` otherwise. -/
theorem EMMA_fixation_time_spec
    (dist freq execution_time K k saccade_scaling t_prep : ℝ)
    (hd : 0 ≤ dist) (hf0 : 0 < freq) (hf1 : freq < 1) :
    (K * (-Real.log freq) * Real.exp (k * dist) < t_prep →
      (EMMA_fixation_time realFuns dist freq execution_time K k saccade_scaling
        t_prep).total = K * (-Real.log freq) * Real.exp (k * dist) ∧
      (EMMA_fixation_time realFuns dist freq execution_time K k saccade_scaling
        t_prep).moved = false) ∧
    (t_prep ≤ K * (-Real.log freq) * Real.exp (k * dist) →
      K * (-Real.log freq) * Real.exp (k * dist)
          ≤ t_prep + (execution_time + saccade_scaling * dist) →
      (EMMA_fixation_time realFuns dist freq execution_time K k saccade_scaling
        t_prep).total = t_prep + (execution_time + saccade_scaling * dist) ∧
      (EMMA_fixation_time realFuns dist freq execution_time K k saccade_scaling
        t_prep).moved = true) ∧
    (t_prep ≤ K * (-Real.log freq) * Real.exp (k * dist) →
      t_prep + (execution_time + saccade_scaling * dist)
          < K * (-Real.log freq) * Real.exp (k * dist) →
      (EMMA_fixation_time realFuns dist freq execution_time K k saccade_scaling
        t_prep).total
        = t_prep + (execution_time + saccade_scaling * dist)
          + (1 - (t_prep + (execution_time + saccade_scaling * dist))
              / (K * (-Real.log freq) * Real.exp (k * dist)))
            * (k * (-Real.log freq)) ∧
      (EMMA_fixation_time realFuns dist freq execution_time K k saccade_scaling
        t_prep).moved = true) := by
  simp only [EMMA_fixation_time, realFuns]
  split_ifs with hlt hle
  · exact ⟨fun _ => ⟨rfl, rfl⟩,
      fun hge _ => absurd hlt (not_lt.mpr hge),
      fun hge _ => absurd hlt (not_lt.mpr hge)⟩
  · exact ⟨fun h => absurd h hlt,
      fun _ _ => ⟨rfl, rfl⟩,
      fun _ hgt => absurd hle (not_le.mpr hgt)⟩
  · exact ⟨fun h => absurd h hlt,
      fun _ hle2 => absurd hle2 hle,
      fun _ _ => ⟨rfl, rfl⟩⟩

/-- Witness for `EMMA_fixation_time_spec` at the default parameters and
distance zero, frequency one half. -/
theorem EMMA_fixation_time_spec_witness :
    ((0.006 : ℝ) * (-Real.log (1/2)) * Real.exp (0.4 * 0) < 0.135 →
      (EMMA_fixation_time realFuns 0 (1/2) 0.07 0.006 0.4 0.002 0.135).total
        = (0.006 : ℝ) * (-Real.log (1/2)) * Real.exp (0.4 * 0) ∧
      (EMMA_fixation_time realFuns 0 (1/2) 0.07 0.006 0.4 0.002 0.135).moved
        = false) ∧
    ((0.135 : ℝ) ≤ 0.006 * (-Real.log (1/2)) * Real.exp (0.4 * 0) →
      (0.006 : ℝ) * (-Real.log (1/2)) * Real.exp (0.4 * 0)
          ≤ 0.135 + (0.07 + 0.002 * 0) →
      (EMMA_fixation_time realFuns 0 (1/2) 0.07 0.006 0.4 0.002 0.135).total
        = (0.135 : ℝ) + (0.07 + 0.002 * 0) ∧
      (EMMA_fixation_time realFuns 0 (1/2) 0.07 0.006 0.4 0.002 0.135).moved
        = true) ∧
    ((0.135 : ℝ) ≤ 0.006 * (-Real.log (1/2)) * Real.exp (0.4 * 0) →
      (0.135 : ℝ) + (0.07 + 0.002 * 0)
          < 0.006 * (-Real.log (1/2)) * Real.exp (0.4 * 0) →
      (EMMA_fixation_time realFuns 0 (1/2) 0.07 0.006 0.4 0.002 0.135).total
        = (0.135 : ℝ) + (0.07 + 0.002 * 0)
          + (1 - ((0.135 : ℝ) + (0.07 + 0.002 * 0))
              / (0.006 * (-Real.log (1/2)) * Real.exp (0.4 * 0)))
            * (0.4 * (-Real.log (1/2))) ∧
      (EMMA_fixation_time realFuns 0 (1/2) 0.07 0.006 0.4 0.002 0.135).moved
        = true) :=
  EMMA_fixation_time_spec 0 (1/2) 0.07 0.006 0.4 0.002 0.135 le_rfl
    (by norm_num) (by norm_num)

/-- `-log 0.1 = log 10`, used to evaluate the default encoding frequency. -/
lemma neg_log_tenth : -Real.log (0.1 : ℝ) = Real.log 10 := by
  have h : (0.1 : ℝ) = (10 : ℝ)⁻¹ := by norm_num
  rw [h, Real.log_inv, neg_neg]

lemma log_ten_pos : 0 < Real.log 10 := Real.log_pos (by norm_num)

lemma log_ten_lt_ten : Real.log 10 < 10 := by
  have h := Real.log_lt_sub_one_of_pos (x := 10) (by norm_num) (by norm_num)
  linarith

/-- With the default parameters the EMMA total time is strictly positive for
every non-negative distance. -/
lemma EMMA_default_total_pos (d : ℝ) (hd : 0 ≤ d) :
    0 < (EMMA_default realFuns d).total := by
  have henc : 0 < (0.006 : ℝ) * (-Real.log 0.1) * Real.exp (0.4 * d) := by
    have := log_ten_pos
    rw [neg_log_tenth]
    positivity
  simp only [EMMA_default, EMMA_fixation_time, realFuns]
  split_ifs with hlt hle
  · exact henc
  · nlinarith
  · have hsacc : (0 : ℝ) < 0.135 + (0.07 + 0.002 * d) := by nlinarith
    have hgt : (0.135 : ℝ) + (0.07 + 0.002 * d)
        < 0.006 * (-Real.log 0.1) * Real.exp (0.4 * d) := not_le.mp hle
    have hdiv : (0.135 + (0.07 + 0.002 * d))
        / (0.006 * (-Real.log 0.1) * Real.exp (0.4 * d)) < 1 :=
      (div_lt_one henc).mpr hgt
    have hnew : 0 < (0.4 : ℝ) * (-Real.log 0.1) := by
      have := log_ten_pos
      rw [neg_log_tenth]
      positivity
    nlinarith

/-- With the default parameters and distance `0`, the EMMA total time is
`K · (-ln freq) = 0.006 · ln 10` and no eye movement occurs. -/
lemma EMMA_default_zero :
    (EMMA_default realFuns 0).total = 0.006 * Real.log 10 ∧
    (EMMA_default realFuns 0).moved = false := by
  have henc : (0.006 : ℝ) * (-Real.log 0.1) * Real.exp (0.4 * 0)
      = 0.006 * Real.log 10 := by
    rw [neg_log_tenth]
    norm_num
  have hlt : (0.006 : ℝ) * (-Real.log 0.1) * Real.exp (0.4 * 0) < 0.135 := by
    rw [henc]
    nlinarith [log_ten_lt_ten, log_ten_pos]
  simp only [EMMA_default, EMMA_fixation_time, realFuns]
  rw [if_pos hlt]
  exact ⟨henc, rfl⟩

/-- Absolute-mode (default) window-fovea configuration, as `main.py` builds it
without `--relative_sensory_actions`. -/
def cfgAbsWindow : AtariEnvConfig :=
  { cfgRelWindow with relative_sensory_actions := false }

/-- The pause motor index `env.action_space.n` (one past the base actions),
i.e. the value of `self.pause_action` when pauses are enabled. -/
def pauseMotor (cfg : AtariEnvConfig) : ℕ :=
  cfg.n_base_actions

/-- Mutable attributes of `PauseableFixedFovealEnv` relevant to stepping.
`has_state` models `hasattr(self, "state")`, i.e. whether `self.state` has
ever been assigned. -/
structure EnvState where
  fov_loc : ℤ × ℤ
  consecutive_pauses : ℕ
  prev_pause_action : Bool
  has_state : Bool
  timestep : ℤ
deriving DecidableEq

/-- Attribute values set in `__init__` (line 73 sets `prev_pause_action = 0`;
`self.state`, `fov_loc` and `timestep` are not assigned before `reset`, so the
placeholders here are never read). -/
def initState (cfg : AtariEnvConfig) : EnvState :=
  { fov_loc := cfg.fov_init_loc, consecutive_pauses := 0,
    prev_pause_action := false, has_state := false, timestep := 0 }

/-- `reset` (lines 85-101): assigns `self.state`, zeroes `consecutive_pauses`,
sets `timestep = -1` and `fov_loc = fov_init_loc`.  `prev_pause_action` is
*not* reset. -/
def reset (cfg : AtariEnvConfig) (s : EnvState) : EnvState :=
  { fov_loc := cfg.fov_init_loc, consecutive_pauses := 0,
    prev_pause_action := s.prev_pause_action, has_state := true,
    timestep := -1 }

/-- Result of `self.env.step` in the non-pause branch; the base environment is
an external collaborator, so its outcome is an input here. -/
structure BaseStepOutcome where
  reward : ℝ
  done : Bool
  truncated : Bool

/-- The quantities set by the two branches of `step` (lines 126-157):
`reward` is `step_info["reward"]` before the saccade cost is subtracted. -/
structure BranchOutcome where
  reward : ℝ
  done : Bool
  truncated : Bool
  raw_reward : ℝ
  prevented_pause : Bool
  no_action_pause : Bool

/-- What `step` returns and logs (lines 103-196).  `branch_reward` is
`step_info["reward"]` before line 172 subtracts the saccade cost; `reward` is
the reward `step` returns. -/
structure StepResult where
  state : EnvState
  pauses : Bool
  prevented_pause : Bool
  no_action_pause : Bool
  branch_reward : ℝ
  emma_time : ℝ
  saccade_cost : ℝ
  fovea_did_move : Bool
  reward : ℝ
  raw_reward : ℝ
  done : Bool
  truncated : Bool

/-- `MASKED_ACTION_PENTALTY` (pauseable_env.py line 16, spelling kept). -/
def MASKED_ACTION_PENTALTY : ℝ := -1e9

/-- `PauseableFixedFovealEnv.step` (lines 103-196).  `sampled` models the
random non-pause action of `_sample_no_pause`; `base` models the outcome of
`self.env.step`, consumed only on non-pause steps. -/
noncomputable def step (F : RealFuns) (cfg : AtariEnvConfig) (s : EnvState)
    (motor_action : ℕ) (sensory_action : ℤ × ℤ) (sampled : ℕ)
    (base : BaseStepOutcome) : StepResult :=
  -- line 111
  let pauses0 : Bool := isPause cfg motor_action
  -- line 115
  let prev_fov_loc := s.fov_loc
  -- lines 117-123: substitution guarded by `not hasattr(self, "state")`
  let motor := if !s.has_state && pauses0 then sampled else motor_action
  let pauses : Bool := isPause cfg motor
  -- lines 126-157
  let br : BranchOutcome :=
    if pauses then
      if s.consecutive_pauses > cfg.consecutive_pause_limit then
        { reward := MASKED_ACTION_PENTALTY, done := false, truncated := true,
          raw_reward := 0, prevented_pause := true, no_action_pause := false }
      else if s.fov_loc = sensory_action then
        { reward := MASKED_ACTION_PENTALTY, done := false, truncated := false,
          raw_reward := 0, prevented_pause := false, no_action_pause := true }
      else
        { reward := -cfg.pause_cost, done := false, truncated := false,
          raw_reward := 0, prevented_pause := false, no_action_pause := false }
    else
      { reward := base.reward, done := base.done, truncated := base.truncated,
        raw_reward := base.reward, prevented_pause := false,
        no_action_pause := false }
  -- lines 144-150 (pause branch) and line 153 (non-pause branch)
  let consecutive_pauses : ℕ :=
    if pauses then (if s.prev_pause_action then s.consecutive_pauses + 1 else 0)
    else 0
  let prev_pause_action : Bool := if pauses then true else s.prev_pause_action
  let has_state : Bool := if pauses then s.has_state else true
  -- lines 160-161: `_fov_step` moves the fovea
  let fov_loc := fov_step_loc cfg s.fov_loc sensory_action
  -- lines 163-172: saccade cost from the EMMA model at default parameters
  let dpp := cfg.visual_degrees_per_pixel
  let visual_degree_distance := F.sqrt
    ((((fov_loc.1 - prev_fov_loc.1 : ℤ) : ℝ) * dpp.1) ^ 2
      + (((fov_loc.2 - prev_fov_loc.2 : ℤ) : ℝ) * dpp.2) ^ 2)
  let emma := EMMA_default F visual_degree_distance
  let saccade_cost := cfg.saccade_cost_scale * emma.total
  { state := { fov_loc := fov_loc, consecutive_pauses := consecutive_pauses,
               prev_pause_action := prev_pause_action, has_state := has_state,
               timestep := s.timestep + 1 },
    pauses := pauses,
    prevented_pause := br.prevented_pause,
    no_action_pause := br.no_action_pause,
    branch_reward := br.reward,
    emma_time := emma.total,
    saccade_cost := saccade_cost,
    fovea_did_move := emma.moved,
    reward := br.reward - saccade_cost,
    raw_reward := br.raw_reward,
    done := br.done,
    truncated := br.truncated }

lemma isPause_pauseMotor (cfg : AtariEnvConfig) (hnp : cfg.no_pauses = false) :
    isPause cfg (pauseMotor cfg) = true := by
  simp [isPause, pause_action, pauseMotor, hnp]

/-- On a pause step (pause action, `self.state` present), the flags, the
pre-saccade reward and the successor attributes of `step`. -/
lemma step_pause_eqs (F : RealFuns) (cfg : AtariEnvConfig) (s : EnvState)
    (a : ℤ × ℤ) (smp : ℕ) (b : BaseStepOutcome)
    (hnp : cfg.no_pauses = false) (hs : s.has_state = true) :
    (step F cfg s (pauseMotor cfg) a smp b).pauses = true ∧
    (step F cfg s (pauseMotor cfg) a smp b).done = false ∧
    (step F cfg s (pauseMotor cfg) a smp b).truncated
      = decide (s.consecutive_pauses > cfg.consecutive_pause_limit) ∧
    (step F cfg s (pauseMotor cfg) a smp b).no_action_pause
      = (!(decide (s.consecutive_pauses > cfg.consecutive_pause_limit))
          && decide (s.fov_loc = a)) ∧
    (step F cfg s (pauseMotor cfg) a smp b).branch_reward
      = (if s.consecutive_pauses > cfg.consecutive_pause_limit then
           MASKED_ACTION_PENTALTY
         else if s.fov_loc = a then MASKED_ACTION_PENTALTY
         else -cfg.pause_cost) ∧
    (step F cfg s (pauseMotor cfg) a smp b).state
      = { fov_loc := fov_step_loc cfg s.fov_loc a,
          consecutive_pauses :=
            if s.prev_pause_action then s.consecutive_pauses + 1 else 0,
          prev_pause_action := true, has_state := s.has_state,
          timestep := s.timestep + 1 } := by
  refine ⟨?_, ?_, ?_, ?_, ?_, ?_⟩ <;>
    simp only [step, isPause_pauseMotor cfg hnp, hs, Bool.not_true,
      Bool.false_and, Bool.false_eq_true, if_false, if_true] <;>
    split_ifs <;>
    simp_all

/-- Claim C7: the code's own comment and assertion (lines 117-123) say a pause
is disallowed on the first step of an episode.  The guard tests
`not hasattr(self, "state")`, but `reset` always assigns `self.state`
(line 86), so after any `reset` the guard is dead: a pause action on the very
first episode step (`timestep` goes from `-1` to `0`) executes as a normal
pause (pause branch taken, base env not stepped), with no substitution. -/
theorem first_episode_step_pause_executes :
    (reset cfgAbsWindow (initState cfgAbsWindow)).timestep = -1 ∧
    (reset cfgAbsWindow (initState cfgAbsWindow)).has_state = true ∧
    (step realFuns cfgAbsWindow (reset cfgAbsWindow (initState cfgAbsWindow))
      (pauseMotor cfgAbsWindow) (5, 5) 0 ⟨0, false, false⟩).pauses = true ∧
    (step realFuns cfgAbsWindow (reset cfgAbsWindow (initState cfgAbsWindow))
      (pauseMotor cfgAbsWindow) (5, 5) 0 ⟨0, false, false⟩).state.timestep = 0 ∧
    (step realFuns cfgAbsWindow (reset cfgAbsWindow (initState cfgAbsWindow))
      (pauseMotor cfgAbsWindow) (5, 5) 0 ⟨0, false, false⟩).prevented_pause
      = false ∧
    (step realFuns cfgAbsWindow (reset cfgAbsWindow (initState cfgAbsWindow))
      (pauseMotor cfgAbsWindow) (5, 5) 0 ⟨0, false, false⟩).no_action_pause
      = false ∧
    (step realFuns cfgAbsWindow (reset cfgAbsWindow (initState cfgAbsWindow))
      (pauseMotor cfgAbsWindow) (5, 5) 0 ⟨0, false, false⟩).done = false ∧
    (step realFuns cfgAbsWindow (reset cfgAbsWindow (initState cfgAbsWindow))
      (pauseMotor cfgAbsWindow) (5, 5) 0 ⟨0, false, false⟩).truncated = false := by
  decide

/-- Line 172: the returned reward is always the branch reward minus the
saccade cost `saccade_cost_scale * total_emma_time`. -/
lemma step_reward_decomposition (F : RealFuns) (cfg : AtariEnvConfig)
    (s : EnvState) (m : ℕ) (a : ℤ × ℤ) (smp : ℕ) (b : BaseStepOutcome) :
    (step F cfg s m a smp b).reward
      = (step F cfg s m a smp b).branch_reward
        - cfg.saccade_cost_scale * (step F cfg s m a smp b).emma_time := rfl

/-- The EMMA total time computed by `step` is strictly positive (the fovea
displacement distance is a square root, hence non-negative). -/
lemma step_emma_time_pos (cfg : AtariEnvConfig) (s : EnvState) (m : ℕ)
    (a : ℤ × ℤ) (smp : ℕ) (b : BaseStepOutcome) :
    0 < (step realFuns cfg s m a smp b).emma_time :=
  EMMA_default_total_pos _ (Real.sqrt_nonneg _)

/-- Claim C3, counterexample: at the default `saccade_cost_scale = 0.001`, a
pause whose sensory action equals the current `fov_loc` does take the
no-action-pause branch and the episode continues, but the returned reward is
`MASKED_ACTION_PENTALTY` minus a strictly positive saccade cost (the EMMA time
at distance 0 is `0.006·ln 10 > 0`), so it is *not* exactly the penalty. -/
theorem no_action_pause_reward_not_exact :
    (step realFuns cfgAbsWindow (reset cfgAbsWindow (initState cfgAbsWindow))
      (pauseMotor cfgAbsWindow) (0, 0) 0 ⟨0, false, false⟩).no_action_pause
      = true ∧
    (step realFuns cfgAbsWindow (reset cfgAbsWindow (initState cfgAbsWindow))
      (pauseMotor cfgAbsWindow) (0, 0) 0 ⟨0, false, false⟩).done = false ∧
    (step realFuns cfgAbsWindow (reset cfgAbsWindow (initState cfgAbsWindow))
      (pauseMotor cfgAbsWindow) (0, 0) 0 ⟨0, false, false⟩).truncated = false ∧
    (step realFuns cfgAbsWindow (reset cfgAbsWindow (initState cfgAbsWindow))
      (pauseMotor cfgAbsWindow) (0, 0) 0 ⟨0, false, false⟩).reward
      < MASKED_ACTION_PENTALTY ∧
    (step realFuns cfgAbsWindow (reset cfgAbsWindow (initState cfgAbsWindow))
      (pauseMotor cfgAbsWindow) (0, 0) 0 ⟨0, false, false⟩).reward
      ≠ MASKED_ACTION_PENTALTY := by
  obtain ⟨_, _, _, _, hbr, _⟩ := step_pause_eqs realFuns cfgAbsWindow
    (reset cfgAbsWindow (initState cfgAbsWindow)) (0, 0) 0 ⟨0, false, false⟩
    rfl rfl
  have h1 : ¬ ((reset cfgAbsWindow (initState cfgAbsWindow)).consecutive_pauses
      > cfgAbsWindow.consecutive_pause_limit) := by decide
  have h2 : (reset cfgAbsWindow (initState cfgAbsWindow)).fov_loc
      = ((0 : ℤ), (0 : ℤ)) := rfl
  rw [if_neg h1, if_pos h2] at hbr
  have hpos := step_emma_time_pos cfgAbsWindow
    (reset cfgAbsWindow (initState cfgAbsWindow)) (pauseMotor cfgAbsWindow)
    (0, 0) 0 ⟨0, false, false⟩
  have hsc : cfgAbsWindow.saccade_cost_scale = 0.001 := rfl
  have hlt : (step realFuns cfgAbsWindow
      (reset cfgAbsWindow (initState cfgAbsWindow)) (pauseMotor cfgAbsWindow)
      (0, 0) 0 ⟨0, false, false⟩).reward < MASKED_ACTION_PENTALTY := by
    rw [step_reward_decomposition, hbr, hsc]
    nlinarith
  exact ⟨by decide, by decide, by decide, hlt, ne_of_lt hlt⟩

/-- Claim C3 (amended): whenever `consecutive_pauses ≤ consecutive_pause_limit`
(otherwise the prevented-pause branch takes precedence and truncates), a pause
step whose sensory action equals the current `fov_loc` takes the
no-action-pause branch, the episode continues, `step_info["reward"]` is set to
exactly `MASKED_ACTION_PENTALTY`, and the *returned* reward is the penalty
minus `saccade_cost_scale` times the EMMA time of the step. -/
theorem no_action_pause_step (F : RealFuns) (cfg : AtariEnvConfig)
    (s : EnvState) (a : ℤ × ℤ) (smp : ℕ) (b : BaseStepOutcome)
    (hnp : cfg.no_pauses = false) (hs : s.has_state = true)
    (hc : s.consecutive_pauses ≤ cfg.consecutive_pause_limit)
    (ha : s.fov_loc = a) :
    (step F cfg s (pauseMotor cfg) a smp b).no_action_pause = true ∧
    (step F cfg s (pauseMotor cfg) a smp b).done = false ∧
    (step F cfg s (pauseMotor cfg) a smp b).truncated = false ∧
    (step F cfg s (pauseMotor cfg) a smp b).branch_reward
      = MASKED_ACTION_PENTALTY ∧
    (step F cfg s (pauseMotor cfg) a smp b).reward
      = MASKED_ACTION_PENTALTY
        - cfg.saccade_cost_scale
          * (step F cfg s (pauseMotor cfg) a smp b).emma_time := by
  obtain ⟨_, hdone, htr, hna, hbr, _⟩ := step_pause_eqs F cfg s a smp b hnp hs
  have hnotgt : ¬ (s.consecutive_pauses > cfg.consecutive_pause_limit) :=
    not_lt.mpr hc
  have hbr' : (step F cfg s (pauseMotor cfg) a smp b).branch_reward
      = MASKED_ACTION_PENTALTY := by
    rw [hbr, if_neg hnotgt, if_pos ha]
  refine ⟨?_, hdone, ?_, hbr', ?_⟩
  · rw [hna]
    simp [hnotgt, ha]
  · rw [htr]
    simp [hnotgt]
  · rw [step_reward_decomposition, hbr']

/-- Witness for `no_action_pause_step` right after a reset. -/
theorem no_action_pause_step_witness :
    (step realFuns cfgAbsWindow (reset cfgAbsWindow (initState cfgAbsWindow))
      (pauseMotor cfgAbsWindow) (0, 0) 3 ⟨2, false, false⟩).no_action_pause
      = true ∧
    (step realFuns cfgAbsWindow (reset cfgAbsWindow (initState cfgAbsWindow))
      (pauseMotor cfgAbsWindow) (0, 0) 3 ⟨2, false, false⟩).done = false ∧
    (step realFuns cfgAbsWindow (reset cfgAbsWindow (initState cfgAbsWindow))
      (pauseMotor cfgAbsWindow) (0, 0) 3 ⟨2, false, false⟩).truncated = false ∧
    (step realFuns cfgAbsWindow (reset cfgAbsWindow (initState cfgAbsWindow))
      (pauseMotor cfgAbsWindow) (0, 0) 3 ⟨2, false, false⟩).branch_reward
      = MASKED_ACTION_PENTALTY ∧
    (step realFuns cfgAbsWindow (reset cfgAbsWindow (initState cfgAbsWindow))
      (pauseMotor cfgAbsWindow) (0, 0) 3 ⟨2, false, false⟩).reward
      = MASKED_ACTION_PENTALTY
        - cfgAbsWindow.saccade_cost_scale
          * (step realFuns cfgAbsWindow
              (reset cfgAbsWindow (initState cfgAbsWindow))
              (pauseMotor cfgAbsWindow) (0, 0) 3 ⟨2, false, false⟩).emma_time :=
  no_action_pause_step realFuns cfgAbsWindow
    (reset cfgAbsWindow (initState cfgAbsWindow)) (0, 0) 3 ⟨2, false, false⟩
    rfl rfl (by decide) rfl

/-- Claim C10: on every step the EMMA total time is strictly positive, the
returned reward is the branch reward minus `saccade_cost_scale` times that
time (hence strictly smaller whenever the scale is positive), and on a step
that leaves `fov_loc` unchanged the EMMA time is `K·(-ln freq) = 0.006·ln 10`
with no eye movement. -/
theorem step_reward_saccade_cost (cfg : AtariEnvConfig) (s : EnvState)
    (motor : ℕ) (a : ℤ × ℤ) (smp : ℕ) (b : BaseStepOutcome)
    (hscale : 0 < cfg.saccade_cost_scale) :
    0 < (step realFuns cfg s motor a smp b).emma_time ∧
    (step realFuns cfg s motor a smp b).reward
      = (step realFuns cfg s motor a smp b).branch_reward
        - cfg.saccade_cost_scale * (step realFuns cfg s motor a smp b).emma_time ∧
    (step realFuns cfg s motor a smp b).reward
      < (step realFuns cfg s motor a smp b).branch_reward ∧
    ((step realFuns cfg s motor a smp b).state.fov_loc = s.fov_loc →
      (step realFuns cfg s motor a smp b).emma_time = 0.006 * Real.log 10 ∧
      (step realFuns cfg s motor a smp b).fovea_did_move = false) := by
  have hpos := step_emma_time_pos cfg s motor a smp b
  refine ⟨hpos, step_reward_decomposition realFuns cfg s motor a smp b, ?_, ?_⟩
  · rw [step_reward_decomposition]
    nlinarith
  · intro hfix
    have hfl : fov_step_loc cfg s.fov_loc a = s.fov_loc := hfix
    have hemma : (step realFuns cfg s motor a smp b).emma_time
        = (EMMA_default realFuns (realFuns.sqrt
            (((((fov_step_loc cfg s.fov_loc a).1 - s.fov_loc.1 : ℤ) : ℝ)
                * cfg.visual_degrees_per_pixel.1) ^ 2
              + ((((fov_step_loc cfg s.fov_loc a).2 - s.fov_loc.2 : ℤ) : ℝ)
                * cfg.visual_degrees_per_pixel.2) ^ 2))).total := rfl
    have hmove : (step realFuns cfg s motor a smp b).fovea_did_move
        = (EMMA_default realFuns (realFuns.sqrt
            (((((fov_step_loc cfg s.fov_loc a).1 - s.fov_loc.1 : ℤ) : ℝ)
                * cfg.visual_degrees_per_pixel.1) ^ 2
              + ((((fov_step_loc cfg s.fov_loc a).2 - s.fov_loc.2 : ℤ) : ℝ)
                * cfg.visual_degrees_per_pixel.2) ^ 2))).moved := rfl
    rw [hfl] at hemma hmove
    have hzero : realFuns.sqrt
        ((((s.fov_loc.1 - s.fov_loc.1 : ℤ) : ℝ)
            * cfg.visual_degrees_per_pixel.1) ^ 2
          + (((s.fov_loc.2 - s.fov_loc.2 : ℤ) : ℝ)
            * cfg.visual_degrees_per_pixel.2) ^ 2) = 0 := by
      simp [realFuns]
    rw [hzero] at hemma hmove
    exact ⟨hemma.trans EMMA_default_zero.1, hmove.trans EMMA_default_zero.2⟩

/-- Witness for `step_reward_saccade_cost` at the default configuration. -/
theorem step_reward_saccade_cost_witness :
    0 < (step realFuns cfgAbsWindow (reset cfgAbsWindow (initState cfgAbsWindow))
          0 (7, 7) 0 ⟨1, false, false⟩).emma_time ∧
    (step realFuns cfgAbsWindow (reset cfgAbsWindow (initState cfgAbsWindow))
        0 (7, 7) 0 ⟨1, false, false⟩).reward
      = (step realFuns cfgAbsWindow (reset cfgAbsWindow (initState cfgAbsWindow))
          0 (7, 7) 0 ⟨1, false, false⟩).branch_reward
        - cfgAbsWindow.saccade_cost_scale
          * (step realFuns cfgAbsWindow
              (reset cfgAbsWindow (initState cfgAbsWindow))
              0 (7, 7) 0 ⟨1, false, false⟩).emma_time ∧
    (step realFuns cfgAbsWindow (reset cfgAbsWindow (initState cfgAbsWindow))
        0 (7, 7) 0 ⟨1, false, false⟩).reward
      < (step realFuns cfgAbsWindow (reset cfgAbsWindow (initState cfgAbsWindow))
          0 (7, 7) 0 ⟨1, false, false⟩).branch_reward ∧
    ((step realFuns cfgAbsWindow (reset cfgAbsWindow (initState cfgAbsWindow))
        0 (7, 7) 0 ⟨1, false, false⟩).state.fov_loc
        = (reset cfgAbsWindow (initState cfgAbsWindow)).fov_loc →
      (step realFuns cfgAbsWindow (reset cfgAbsWindow (initState cfgAbsWindow))
          0 (7, 7) 0 ⟨1, false, false⟩).emma_time = 0.006 * Real.log 10 ∧
      (step realFuns cfgAbsWindow (reset cfgAbsWindow (initState cfgAbsWindow))
          0 (7, 7) 0 ⟨1, false, false⟩).fovea_did_move = false) :=
  step_reward_saccade_cost cfgAbsWindow
    (reset cfgAbsWindow (initState cfgAbsWindow)) 0 (7, 7) 0 ⟨1, false, false⟩
    (show (0 : ℝ) < (0.001 : ℝ) by norm_num)

/-- The environment state after `n` consecutive pause actions from `s0`
(rewards discarded; `base` is never consumed on a pause step). -/
noncomputable def pauseTrace (F : RealFuns) (cfg : AtariEnvConfig)
    (s0 : EnvState) (a : ℤ × ℤ) (smp : ℕ) (b : BaseStepOutcome) :
    ℕ → EnvState
  | 0 => s0
  | n + 1 =>
      (step F cfg (pauseTrace F cfg s0 a smp b n) (pauseMotor cfg) a smp
        b).state

/-- After `n` consecutive pauses from a state with a zero pause counter and no
previous pause recorded, the counter reads `n - 1`: lines 144-150 increment it
only when the previous action was already a pause, and only after the limit
check of line 131. -/
lemma pauseTrace_char (F : RealFuns) (cfg : AtariEnvConfig) (s0 : EnvState)
    (a : ℤ × ℤ) (smp : ℕ) (b : BaseStepOutcome)
    (hnp : cfg.no_pauses = false) (hs0 : s0.has_state = true)
    (hc0 : s0.consecutive_pauses = 0) (hp0 : s0.prev_pause_action = false) :
    ∀ n, (pauseTrace F cfg s0 a smp b n).has_state = true ∧
      (pauseTrace F cfg s0 a smp b n).consecutive_pauses = n - 1 ∧
      (pauseTrace F cfg s0 a smp b n).prev_pause_action = decide (1 ≤ n) := by
  intro n
  induction n with
  | zero =>
    exact ⟨hs0, by simpa [pauseTrace] using hc0, by simpa [pauseTrace] using hp0⟩
  | succ n ih =>
    obtain ⟨ihs, ihc, ihp⟩ := ih
    obtain ⟨_, _, _, _, _, hstate⟩ :=
      step_pause_eqs F cfg (pauseTrace F cfg s0 a smp b n) a smp b hnp ihs
    have hT : pauseTrace F cfg s0 a smp b (n + 1)
        = { fov_loc := fov_step_loc cfg (pauseTrace F cfg s0 a smp b n).fov_loc a,
            consecutive_pauses :=
              if (pauseTrace F cfg s0 a smp b n).prev_pause_action then
                (pauseTrace F cfg s0 a smp b n).consecutive_pauses + 1
              else 0,
            prev_pause_action := true,
            has_state := (pauseTrace F cfg s0 a smp b n).has_state,
            timestep := (pauseTrace F cfg s0 a smp b n).timestep + 1 } := by
      rw [pauseTrace]
      exact hstate
    rw [hT]
    refine ⟨ihs, ?_, by simp⟩
    rw [ihp, ihc]
    cases n with
    | zero => simp
    | succ m => simp

/-- Claim C2 (amended): from a fresh environment after a reset and at least
one non-pause step (pause counter `0`, no previous pause recorded),
consecutive pause actions yield `truncated = false` on pauses `1..limit+2`
and `truncated = true` with `step_info["reward"] = MASKED_ACTION_PENTALTY` on
pause `limit+3`: the check `consecutive_pauses > limit` runs before the
counter update, and the counter starts counting at the second pause. -/
theorem pause_truncation_at_limit_plus_three (F : RealFuns)
    (cfg : AtariEnvConfig) (s0 : EnvState) (a : ℤ × ℤ) (smp : ℕ)
    (b : BaseStepOutcome)
    (hnp : cfg.no_pauses = false) (hs0 : s0.has_state = true)
    (hc0 : s0.consecutive_pauses = 0) (hp0 : s0.prev_pause_action = false) :
    (∀ k, 1 ≤ k → k ≤ cfg.consecutive_pause_limit + 2 →
      (step F cfg (pauseTrace F cfg s0 a smp b (k - 1)) (pauseMotor cfg) a smp
        b).truncated = false) ∧
    (step F cfg (pauseTrace F cfg s0 a smp b (cfg.consecutive_pause_limit + 2))
      (pauseMotor cfg) a smp b).truncated = true ∧
    (step F cfg (pauseTrace F cfg s0 a smp b (cfg.consecutive_pause_limit + 2))
      (pauseMotor cfg) a smp b).branch_reward = MASKED_ACTION_PENTALTY := by
  have hchar := pauseTrace_char F cfg s0 a smp b hnp hs0 hc0 hp0
  refine ⟨?_, ?_, ?_⟩
  · intro k hk1 hk2
    obtain ⟨hhs, hcc, _⟩ := hchar (k - 1)
    obtain ⟨_, _, htr, _, _, _⟩ := step_pause_eqs F cfg _ a smp b hnp hhs
    rw [htr, hcc]
    simp only [decide_eq_false_iff_not, gt_iff_lt, not_lt]
    omega
  · obtain ⟨hhs, hcc, _⟩ := hchar (cfg.consecutive_pause_limit + 2)
    obtain ⟨_, _, htr, _, _, _⟩ := step_pause_eqs F cfg _ a smp b hnp hhs
    rw [htr, hcc]
    simp only [decide_eq_true_eq, gt_iff_lt]
    omega
  · obtain ⟨hhs, hcc, _⟩ := hchar (cfg.consecutive_pause_limit + 2)
    obtain ⟨_, _, _, _, hbr, _⟩ := step_pause_eqs F cfg _ a smp b hnp hhs
    have hgt : (pauseTrace F cfg s0 a smp b
        (cfg.consecutive_pause_limit + 2)).consecutive_pauses
        > cfg.consecutive_pause_limit := by
      rw [hcc]
      omega
    rw [hbr, if_pos hgt]

/-- The default configuration with `consecutive_pause_limit = 0`. -/
def cfgL0 : AtariEnvConfig :=
  { cfgAbsWindow with consecutive_pause_limit := 0 }

/-- Witness for `pause_truncation_at_limit_plus_three` with limit `0`:
pauses 1 and 2 are not truncated, pause 3 is. -/
theorem pause_truncation_at_limit_plus_three_witness :
    (∀ k, 1 ≤ k → k ≤ cfgL0.consecutive_pause_limit + 2 →
      (step realFuns cfgL0
        (pauseTrace realFuns cfgL0 (reset cfgL0 (initState cfgL0)) (1, 1) 0
          ⟨0, false, false⟩ (k - 1))
        (pauseMotor cfgL0) (1, 1) 0 ⟨0, false, false⟩).truncated = false) ∧
    (step realFuns cfgL0
      (pauseTrace realFuns cfgL0 (reset cfgL0 (initState cfgL0)) (1, 1) 0
        ⟨0, false, false⟩ (cfgL0.consecutive_pause_limit + 2))
      (pauseMotor cfgL0) (1, 1) 0 ⟨0, false, false⟩).truncated = true ∧
    (step realFuns cfgL0
      (pauseTrace realFuns cfgL0 (reset cfgL0 (initState cfgL0)) (1, 1) 0
        ⟨0, false, false⟩ (cfgL0.consecutive_pause_limit + 2))
      (pauseMotor cfgL0) (1, 1) 0 ⟨0, false, false⟩).branch_reward
      = MASKED_ACTION_PENTALTY :=
  pause_truncation_at_limit_plus_three realFuns cfgL0
    (reset cfgL0 (initState cfgL0)) (1, 1) 0 ⟨0, false, false⟩
    rfl rfl rfl rfl

set_option maxRecDepth 100000 in
/-- Claim C2, counterexample: with the default `consecutive_pause_limit = 20`,
starting from a fresh reset followed by one non-pause step, the 21st
(= limit+1 -st) consecutive pause action still returns `truncated = false`:
truncation needs limit+3 consecutive pauses. -/
theorem pause_limit_plus_one_not_truncated :
    cfgAbsWindow.consecutive_pause_limit = 20 ∧
    ((step realFuns cfgAbsWindow (reset cfgAbsWindow (initState cfgAbsWindow))
        0 (3, 3) 0 ⟨0, false, false⟩).state).consecutive_pauses = 0 ∧
    ((step realFuns cfgAbsWindow (reset cfgAbsWindow (initState cfgAbsWindow))
        0 (3, 3) 0 ⟨0, false, false⟩).state).prev_pause_action = false ∧
    (step realFuns cfgAbsWindow
      (pauseTrace realFuns cfgAbsWindow
        (step realFuns cfgAbsWindow (reset cfgAbsWindow (initState cfgAbsWindow))
          0 (3, 3) 0 ⟨0, false, false⟩).state
        (3, 3) 0 ⟨0, false, false⟩ 20)
      (pauseMotor cfgAbsWindow) (3, 3) 0 ⟨0, false, false⟩).truncated
      = false := by
  decide

/-- One batch element of the target of `CRDQN._train_dqn` (crdqn.py lines
588-593): `td_target = rewards - (1 - observation_quality) * sugarl_r_scale
+ gamma * (motor_target_max + sensory_target_max) * (1 - dones)`. -/
def td_target (sugarl_r_scale gamma : ℝ) {n : ℕ}
    (rewards observation_quality motor_target_max sensory_target_max dones :
      Fin n → ℝ) (i : Fin n) : ℝ :=
  rewards i - (1 - observation_quality i) * sugarl_r_scale
    + gamma * (motor_target_max i + sensory_target_max i) * (1 - dones i)

/-- `original_td_target` (lines 594-595): the target without the sugarl
adjustment. -/
def original_td_target (gamma : ℝ) {n : ℕ}
    (rewards motor_target_max sensory_target_max dones : Fin n → ℝ)
    (i : Fin n) : ℝ :=
  rewards i + gamma * (motor_target_max i + sensory_target_max i) * (1 - dones i)

/-- Claim C5: for every batch whose `observation_quality` is `1` on all
transitions, `td_target` coincides with `original_td_target` — the sugarl
adjustment vanishes at full observation confidence. -/
theorem td_target_identity (sugarl_r_scale gamma : ℝ) {n : ℕ}
    (rewards observation_quality motor_target_max sensory_target_max dones :
      Fin n → ℝ)
    (hq : ∀ i, observation_quality i = 1) :
    ∀ i, td_target sugarl_r_scale gamma rewards observation_quality
          motor_target_max sensory_target_max dones i
        = original_td_target gamma rewards motor_target_max sensory_target_max
          dones i := by
  intro i
  simp [td_target, original_td_target, hq i]

/-- Witness for `td_target_identity` on a singleton batch. -/
theorem td_target_identity_witness :
    td_target 3 (1/2) (fun _ => 2) (fun _ => 1) (fun _ => 5)
          (fun _ => 7) (fun _ => 0) (0 : Fin 1)
        = original_td_target (1/2) (fun _ => 2) (fun _ => 5) (fun _ => 7)
          (fun _ => 0) (0 : Fin 1) :=
  td_target_identity 3 (1/2) (fun _ => 2) (fun _ => 1) (fun _ => 5)
    (fun _ => 7) (fun _ => 0) (fun _ => rfl) (0 : Fin 1)

/-- The guard in `CRDQN.learn` (crdqn.py lines 249-258): after
`current_timestep` is advanced past the transitions just stored, a training
iteration runs only when `current_timestep > batch_size` (otherwise the step
is skipped) and `current_timestep % train_frequency == 0`. -/
def training_iteration_runs (batch_size train_frequency current_timestep : ℕ) :
    Bool :=
  decide (current_timestep > batch_size)
    && decide (current_timestep % train_frequency = 0)

/-- `CRDQN.train` (lines 275-288): `_train_sfn` runs on every training
iteration. -/
def sfn_trains (batch_size train_frequency current_timestep : ℕ) : Bool :=
  training_iteration_runs batch_size train_frequency current_timestep

/-- `CRDQN.train` (lines 286-288): `_train_dqn` runs on a training iteration
only when `current_timestep > learning_start`. -/
def dqn_trains (batch_size train_frequency learning_start current_timestep : ℕ) :
    Bool :=
  training_iteration_runs batch_size train_frequency current_timestep
    && decide (current_timestep > learning_start)

/-- Claim C9: whenever a training iteration runs, more transitions than one
batch have been collected (`batch_size < current_timestep`); the SFN trains on
every such iteration, with no warm-up condition; and the Q-network update runs
exactly when `current_timestep` additionally exceeds `learning_start`. -/
theorem training_guards (batch_size train_frequency learning_start
    current_timestep : ℕ)
    (h : training_iteration_runs batch_size train_frequency current_timestep
      = true) :
    batch_size < current_timestep ∧
    sfn_trains batch_size train_frequency current_timestep = true ∧
    (dqn_trains batch_size train_frequency learning_start current_timestep
        = true ↔ learning_start < current_timestep) := by
  have h' := h
  simp only [training_iteration_runs, Bool.and_eq_true, decide_eq_true_eq,
    gt_iff_lt] at h'
  exact ⟨h'.1, h, by simp [dqn_trains, h]⟩

/-- Witness for `training_guards` at `batch_size = 32`, `train_frequency = 4`,
`learning_start = 100`, `current_timestep = 36`. -/
theorem training_guards_witness :
    (32 : ℕ) < 36 ∧
    sfn_trains 32 4 36 = true ∧
    (dqn_trains 32 4 100 36 = true ↔ (100 : ℕ) < 36) :=
  training_guards 32 4 100 36 (by decide)

/-- `F.softmax(pred_motor_actions, dim=0)` as written in `_train_sfn`
(crdqn.py line 563): the logits are `[batch, n_actions]`, and `dim=0`
normalizes each *column*, i.e. over the batch dimension. -/
noncomputable def softmax_dim0 (e : ℝ → ℝ) {m n : ℕ} (M : Fin m → Fin n → ℝ)
    (i : Fin m) (j : Fin n) : ℝ :=
  e (M i j) / ∑ k : Fin m, e (M k j)

/-- The observation quality returned by `_train_sfn` (lines 563-566): the
dim-0 softmax of the logits gathered at each transition's true motor action. -/
noncomputable def sfn_observation_quality (e : ℝ → ℝ) {m n : ℕ} (M : Fin m → Fin n → ℝ)
    (motor_actions : Fin m → Fin n) (i : Fin m) : ℝ :=
  softmax_dim0 e M i (motor_actions i)

/-- Modelled from the spec: §4.6 defines observation quality as the softmax
probability over the *motor-action set* assigned to the true action, i.e. a
dim-1 (row-wise) softmax of the logits. -/
noncomputable def spec_action_softmax (e : ℝ → ℝ) {m n : ℕ} (M : Fin m → Fin n → ℝ)
    (i : Fin m) (j : Fin n) : ℝ :=
  e (M i j) / ∑ k : Fin n, e (M i k)

/-- The concrete SFN logit matrix `[[0, 0], [1, 0]]` (batch 2 × actions 2). -/
def sfnLogits : Fin 2 → Fin 2 → ℝ :=
  fun i j => if i = 1 ∧ j = 0 then 1 else 0

/-- Claim C6: with logits `[[0,0],[1,0]]` (batch 2 × actions 2) and true
action `0` for the first transition, the quality `_train_sfn` computes is
`1/(1+e)`, which differs from the softmax probability over the motor-action
set (`1/2`); the code's per-transition values do not even sum to `1` over the
motor actions, while the spec's do.  The code normalizes over the batch
dimension (`dim=0`), contradicting its own comment ("the probabilites the sfn
would have also selected the truely selected action"). -/
theorem sfn_quality_not_action_softmax :
    sfn_observation_quality Real.exp
        sfnLogits
        (fun _ => (0 : Fin 2)) 0
      ≠ spec_action_softmax Real.exp
        sfnLogits 0 0 ∧
    (∑ j : Fin 2, softmax_dim0 Real.exp
        sfnLogits 0 j) ≠ 1 ∧
    (∑ j : Fin 2, spec_action_softmax Real.exp
        sfnLogits 0 j) = 1 := by
  have he : (2 : ℝ) ≤ Real.exp 1 := by
    have h := Real.add_one_le_exp (1 : ℝ)
    linarith
  have hpos : (0 : ℝ) < 1 + Real.exp 1 := by positivity
  have hval : sfn_observation_quality Real.exp
      sfnLogits
      (fun _ => (0 : Fin 2)) 0 = 1 / (1 + Real.exp 1) := by
    norm_num [sfn_observation_quality, softmax_dim0, sfnLogits,
      Fin.sum_univ_two, Real.exp_zero]
  have hspec : spec_action_softmax Real.exp
      sfnLogits 0 0 = 1 / 2 := by
    norm_num [spec_action_softmax, sfnLogits, Fin.sum_univ_two, Real.exp_zero]
  have hlt : 1 / (1 + Real.exp 1) < 1 / 2 := by
    apply div_lt_div_of_pos_left one_pos (by norm_num)
    linarith
  refine ⟨?_, ?_, ?_⟩
  · rw [hval, hspec]
    exact ne_of_lt hlt
  · have hsum : (∑ j : Fin 2, softmax_dim0 Real.exp
        sfnLogits 0 j)
        = 1 / (1 + Real.exp 1) + 1 / 2 := by
      norm_num [softmax_dim0, sfnLogits, Fin.sum_univ_two, Real.exp_zero]
    rw [hsum]
    intro hcontra
    have : 1 / (1 + Real.exp 1) = 1 / 2 := by linarith
    exact ne_of_lt hlt this
  · rw [Fin.sum_univ_two]
    norm_num [spec_action_softmax, sfnLogits, Fin.sum_univ_two, Real.exp_zero]

/-- `_pixel_eccentricities` (pauseable_env.py lines 288-301):
`np.meshgrid(x, y, indexing="xy")` puts, at row `i` and column `j`, the
x-distance `j - fov_loc[0]` in channel 0 and the y-distance `i - fov_loc[1]`
in channel 1. -/
def pixel_eccentricities (fov_loc : ℤ × ℤ) (i j : ℕ) : ℤ × ℤ :=
  ((j : ℤ) - fov_loc.1, (i : ℤ) - fov_loc.2)

/-- The gaussian fovea mask (lines 252-259) at row `i`, column `j`:
`exp(-Σ (eccentricity² / (2σ²)))`. -/
noncomputable def gaussian_mask (e : ℝ → ℝ) (fov_loc : ℤ × ℤ) (sigma : ℝ)
    (i j : ℕ) : ℝ :=
  e (-(((pixel_eccentricities fov_loc i j).1 : ℝ) ^ 2 / (2 * sigma ^ 2)
      + ((pixel_eccentricities fov_loc i j).2 : ℝ) ^ 2 / (2 * sigma ^ 2)))

/-- `sigma = self.fov_size[0] / 2` (line 255). -/
noncomputable def gaussian_sigma (cfg : AtariEnvConfig) : ℝ :=
  (cfg.fov_size.1 : ℝ) / 2

/-- The exponential fovea mask (lines 272-284) at row `i`, column `j`:
`A · exp(B · dist) + C` where `dist` is the eccentricity in visual degrees.
Modelled from the spec: the constants `A`, `B`, `C`
(`atari_cr.graphs.eccentricity`) and the degrees-per-pixel factors
(`VISUAL_DEGREE_SCREEN_SIZE / SCREEN_SIZE`) are outside the given sources;
§4.1 describes a psychophysical acuity *falloff* curve, so the theorem below
assumes `A > 0`, `B < 0` and positive scaling factors. -/
noncomputable def exponential_mask (F : RealFuns) (A B C dppx dppy : ℝ)
    (fov_loc : ℤ × ℤ) (i j : ℕ) : ℝ :=
  A * F.exp (B * F.sqrt
      ((((pixel_eccentricities fov_loc i j).1 : ℝ) * dppx) ^ 2
        + (((pixel_eccentricities fov_loc i j).2 : ℝ) * dppy) ^ 2)) + C

/-- Claim C8: for every in-grid `fov_loc = (f0, f1)` the gaussian fovea mask
equals `1` at the pixel whose x/y coordinates are `fov_loc` (row `f1`, column
`f0`), is at most `1` everywhere (so the peak weight after the `/= max`
normalization is exactly this pixel), and is strictly below `1` at every other
pixel; the exponential mask likewise attains its maximum `A + C` exactly at
that pixel. -/
theorem fovea_mask_peak_at_fov_loc (cfg : AtariEnvConfig) (f0 f1 : ℤ)
    (A B C dppx dppy : ℝ)
    (hsig : 0 < cfg.fov_size.1) (hf0 : 0 ≤ f0) (hf1 : 0 ≤ f1)
    (hA : 0 < A) (hB : B < 0) (hx : 0 < dppx) (hy : 0 < dppy) :
    gaussian_mask Real.exp (f0, f1) (gaussian_sigma cfg) f1.toNat f0.toNat
      = 1 ∧
    (∀ i j : ℕ,
      gaussian_mask Real.exp (f0, f1) (gaussian_sigma cfg) i j ≤ 1) ∧
    (∀ i j : ℕ, i ≠ f1.toNat ∨ j ≠ f0.toNat →
      gaussian_mask Real.exp (f0, f1) (gaussian_sigma cfg) i j < 1) ∧
    exponential_mask realFuns A B C dppx dppy (f0, f1) f1.toNat f0.toNat
      = A + C ∧
    (∀ i j : ℕ,
      exponential_mask realFuns A B C dppx dppy (f0, f1) i j ≤ A + C) ∧
    (∀ i j : ℕ, i ≠ f1.toNat ∨ j ≠ f0.toNat →
      exponential_mask realFuns A B C dppx dppy (f0, f1) i j < A + C) := by
  have hsigma : (0 : ℝ) < gaussian_sigma cfg := by
    rw [gaussian_sigma]
    have : (0 : ℝ) < (cfg.fov_size.1 : ℝ) := by exact_mod_cast hsig
    linarith
  have hden : (0 : ℝ) < 2 * gaussian_sigma cfg ^ 2 := by positivity
  refine ⟨?_, ?_, ?_, ?_, ?_, ?_⟩
  · simp [gaussian_mask, pixel_eccentricities, Int.toNat_of_nonneg hf0,
      Int.toNat_of_nonneg hf1]
  · intro i j
    rw [gaussian_mask]
    rw [Real.exp_le_one_iff]
    have hn1 : (0 : ℝ) ≤ ((pixel_eccentricities (f0, f1) i j).1 : ℝ) ^ 2
        / (2 * gaussian_sigma cfg ^ 2) := by positivity
    have hn2 : (0 : ℝ) ≤ ((pixel_eccentricities (f0, f1) i j).2 : ℝ) ^ 2
        / (2 * gaussian_sigma cfg ^ 2) := by positivity
    linarith
  · intro i j hij
    rw [gaussian_mask]
    rw [Real.exp_lt_one_iff]
    have hsum : (0 : ℝ)
        < ((pixel_eccentricities (f0, f1) i j).1 : ℝ) ^ 2
            / (2 * gaussian_sigma cfg ^ 2)
          + ((pixel_eccentricities (f0, f1) i j).2 : ℝ) ^ 2
            / (2 * gaussian_sigma cfg ^ 2) := by
      rcases hij with h | h
      · have hne : ((pixel_eccentricities (f0, f1) i j).2 : ℤ) ≠ 0 := by
          simp only [pixel_eccentricities]
          omega
        have hcast : ((pixel_eccentricities (f0, f1) i j).2 : ℝ) ≠ 0 :=
          Int.cast_ne_zero.mpr hne
        have hpos2 : (0 : ℝ)
            < ((pixel_eccentricities (f0, f1) i j).2 : ℝ) ^ 2 :=
          lt_of_le_of_ne (sq_nonneg _) (Ne.symm (pow_ne_zero 2 hcast))
        have := div_pos hpos2 hden
        have h1 : (0 : ℝ)
            ≤ ((pixel_eccentricities (f0, f1) i j).1 : ℝ) ^ 2
              / (2 * gaussian_sigma cfg ^ 2) := by positivity
        linarith
      · have hne : ((pixel_eccentricities (f0, f1) i j).1 : ℤ) ≠ 0 := by
          simp only [pixel_eccentricities]
          omega
        have hcast : ((pixel_eccentricities (f0, f1) i j).1 : ℝ) ≠ 0 :=
          Int.cast_ne_zero.mpr hne
        have hpos1 : (0 : ℝ)
            < ((pixel_eccentricities (f0, f1) i j).1 : ℝ) ^ 2 :=
          lt_of_le_of_ne (sq_nonneg _) (Ne.symm (pow_ne_zero 2 hcast))
        have := div_pos hpos1 hden
        have h2 : (0 : ℝ)
            ≤ ((pixel_eccentricities (f0, f1) i j).2 : ℝ) ^ 2
              / (2 * gaussian_sigma cfg ^ 2) := by positivity
        linarith
    linarith
  · simp [exponential_mask, pixel_eccentricities, realFuns,
      Int.toNat_of_nonneg hf0, Int.toNat_of_nonneg hf1]
  · intro i j
    rw [exponential_mask]
    have hd0 : (0 : ℝ) ≤ Real.sqrt
        ((((pixel_eccentricities (f0, f1) i j).1 : ℝ) * dppx) ^ 2
          + (((pixel_eccentricities (f0, f1) i j).2 : ℝ) * dppy) ^ 2) :=
      Real.sqrt_nonneg _
    have harg : realFuns.sqrt
        ((((pixel_eccentricities (f0, f1) i j).1 : ℝ) * dppx) ^ 2
          + (((pixel_eccentricities (f0, f1) i j).2 : ℝ) * dppy) ^ 2)
        = Real.sqrt
        ((((pixel_eccentricities (f0, f1) i j).1 : ℝ) * dppx) ^ 2
          + (((pixel_eccentricities (f0, f1) i j).2 : ℝ) * dppy) ^ 2) := rfl
    rw [harg]
    have hexp : realFuns.exp (B * Real.sqrt
        ((((pixel_eccentricities (f0, f1) i j).1 : ℝ) * dppx) ^ 2
          + (((pixel_eccentricities (f0, f1) i j).2 : ℝ) * dppy) ^ 2)) ≤ 1 := by
      show Real.exp _ ≤ 1
      rw [Real.exp_le_one_iff]
      nlinarith
    have := mul_le_mul_of_nonneg_left hexp hA.le
    linarith
  · intro i j hij
    rw [exponential_mask]
    have hinner : (0 : ℝ)
        < (((pixel_eccentricities (f0, f1) i j).1 : ℝ) * dppx) ^ 2
          + (((pixel_eccentricities (f0, f1) i j).2 : ℝ) * dppy) ^ 2 := by
      rcases hij with h | h
      · have hne : ((pixel_eccentricities (f0, f1) i j).2 : ℤ) ≠ 0 := by
          simp only [pixel_eccentricities]
          omega
        have hcast : ((pixel_eccentricities (f0, f1) i j).2 : ℝ) * dppy ≠ 0 :=
          mul_ne_zero (Int.cast_ne_zero.mpr hne) hy.ne'
        have hpos : (0 : ℝ)
            < (((pixel_eccentricities (f0, f1) i j).2 : ℝ) * dppy) ^ 2 :=
          lt_of_le_of_ne (sq_nonneg _) (Ne.symm (pow_ne_zero 2 hcast))
        nlinarith [sq_nonneg (((pixel_eccentricities (f0, f1) i j).1 : ℝ) * dppx)]
      · have hne : ((pixel_eccentricities (f0, f1) i j).1 : ℤ) ≠ 0 := by
          simp only [pixel_eccentricities]
          omega
        have hcast : ((pixel_eccentricities (f0, f1) i j).1 : ℝ) * dppx ≠ 0 :=
          mul_ne_zero (Int.cast_ne_zero.mpr hne) hx.ne'
        have hpos : (0 : ℝ)
            < (((pixel_eccentricities (f0, f1) i j).1 : ℝ) * dppx) ^ 2 :=
          lt_of_le_of_ne (sq_nonneg _) (Ne.symm (pow_ne_zero 2 hcast))
        nlinarith [sq_nonneg (((pixel_eccentricities (f0, f1) i j).2 : ℝ) * dppy)]
    have hd : (0 : ℝ) < Real.sqrt
        ((((pixel_eccentricities (f0, f1) i j).1 : ℝ) * dppx) ^ 2
          + (((pixel_eccentricities (f0, f1) i j).2 : ℝ) * dppy) ^ 2) :=
      Real.sqrt_pos.mpr hinner
    have hexp : realFuns.exp (realFuns.sqrt
        ((((pixel_eccentricities (f0, f1) i j).1 : ℝ) * dppx) ^ 2
          + (((pixel_eccentricities (f0, f1) i j).2 : ℝ) * dppy) ^ 2) * B) < 1 := by
      show Real.exp _ < 1
      rw [Real.exp_lt_one_iff]
      show Real.sqrt _ * B < 0
      exact mul_neg_of_pos_of_neg hd hB
    have hexp' : realFuns.exp (B * realFuns.sqrt
        ((((pixel_eccentricities (f0, f1) i j).1 : ℝ) * dppx) ^ 2
          + (((pixel_eccentricities (f0, f1) i j).2 : ℝ) * dppy) ^ 2)) < 1 := by
      rw [mul_comm]
      exact hexp
    have := mul_lt_mul_of_pos_left hexp' hA
    linarith

/-- Witness for `fovea_mask_peak_at_fov_loc` at the default window size and
fovea location `(10, 20)`. -/
theorem fovea_mask_peak_at_fov_loc_witness :
    gaussian_mask Real.exp (10, 20) (gaussian_sigma cfgAbsWindow)
      (20 : ℤ).toNat (10 : ℤ).toNat = 1 ∧
    (∀ i j : ℕ,
      gaussian_mask Real.exp (10, 20) (gaussian_sigma cfgAbsWindow) i j ≤ 1) ∧
    (∀ i j : ℕ, i ≠ (20 : ℤ).toNat ∨ j ≠ (10 : ℤ).toNat →
      gaussian_mask Real.exp (10, 20) (gaussian_sigma cfgAbsWindow) i j < 1) ∧
    exponential_mask realFuns 1 (-1) 0 1 1 (10, 20)
      (20 : ℤ).toNat (10 : ℤ).toNat = 1 + 0 ∧
    (∀ i j : ℕ,
      exponential_mask realFuns 1 (-1) 0 1 1 (10, 20) i j ≤ 1 + 0) ∧
    (∀ i j : ℕ, i ≠ (20 : ℤ).toNat ∨ j ≠ (10 : ℤ).toNat →
      exponential_mask realFuns 1 (-1) 0 1 1 (10, 20) i j < 1 + 0) :=
  fovea_mask_peak_at_fov_loc cfgAbsWindow 10 20 1 (-1) 0 1 1
    (by decide) (by decide) (by decide)
    (by norm_num) (by norm_num) (by norm_num) (by norm_num)

end AtariCR
